import Mathlib

/-!
Verification of the Dynamic External Configuration Manager of the `forge`
repository (package `routes`, `src/api/internal/routes/routes.go`, and the
HTTP handlers in `src/api/internal/handlers`).

The Go code is shallowly embedded:
* a `Route` mirrors the Go struct `Route` (the Go field `StripPrefix` is the
  Lean field `strip`);
* the Go map `map[string]Route` is modelled as an association list of
  `Route`s keyed by `name`, with at-most-one occurrence per name
  (`wfStore`), which is the invariant a Go map provides by construction;
* file-system effects (the persisted `routes.yaml` and the generated nginx
  config) are modelled by a `World` record; YAML (de)serialization of the
  routes list is modelled as the identity on the list of routes;
* the fallible external steps (write of the config file, write of the
  artifact, the `docker exec … nginx -s reload` call) are oracles of type
  `Except String Unit` passed to the operation, so that every partial-failure
  schedule of `Manager.Add` / `Manager.Remove` is a concrete input.
-/

namespace Forge

/-- Embeds the Go struct `Route` of `routes.go` (field `strip` embeds the Go
field `StripPrefix`). -/
structure Route where
  name   : String
  path   : String
  target : String
  strip  : Bool
deriving DecidableEq, Repr

/-- Character-list version of Go `strings.HasPrefix`. -/
def listHasPre : List Char → List Char → Bool
  | [], _ => true
  | _ :: _, [] => false
  | a :: as, b :: bs => a == b && listHasPre as bs

/-- Embeds Go `strings.HasPrefix s pre`. -/
def hasPre (s pre : String) : Bool := listHasPre pre.data s.data

/-- Embeds Go `strings.HasSuffix s suf`. -/
def hasSuf (s suf : String) : Bool := listHasPre suf.data.reverse s.data.reverse

/-- Embeds Go `strings.TrimSuffix s suf`: drops one copy of `suf` from the
end of `s` when present. -/
def trimSuffix (s suf : String) : String :=
  if hasSuf s suf then String.mk (s.data.take (s.data.length - suf.data.length)) else s

/-- The path normalization performed inline by `Manager.Add`
(routes.go lines 86-92): ensure the path starts and ends with `/`. -/
def normalizePath (p : String) : String :=
  let p1 := if hasPre p "/" then p else "/" ++ p
  if hasSuf p1 "/" then p1 else p1 ++ "/"

/-- Lookup by name in the store, embedding `m.routes[name]`. -/
def lookupRoute : List Route → String → Option Route
  | [], _ => none
  | x :: xs, n => if x.name = n then some x else lookupRoute xs n

/-- Map update `m.routes[route.Name] = route` on the association-list model. -/
def upsert : List Route → Route → List Route
  | [], r => [r]
  | x :: xs, r => if x.name = r.name then r :: xs else x :: upsert xs r

/-- Map deletion `delete(m.routes, name)` on the association-list model. -/
def removeRoute : List Route → String → List Route
  | [], _ => []
  | x :: xs, n => if x.name = n then xs else x :: removeRoute xs n

/-- A store is well formed when no name occurs twice — the invariant a Go
map gives by construction. -/
def wfStore (s : List Route) : Prop := (s.map Route.name).Nodup

/-- The fixed banner written by `generateNginxConfig` before the blocks. -/
def nginxHeader : String :=
  "# Dynamic routes - auto-generated, do not edit\n# Managed by Forge API\n\n"

/-- The per-route directives `generateNginxConfig` writes after the
`proxy_pass` line, closing the location block. -/
def commonDirectives : String :=
  "    proxy_http_version 1.1;\n" ++
  "    proxy_set_header Host $host;\n" ++
  "    proxy_set_header X-Real-IP $remote_addr;\n" ++
  "    proxy_set_header X-Forwarded-For $proxy_add_x_forwarded_for;\n" ++
  "    proxy_set_header X-Forwarded-Proto $scheme;\n" ++
  "    proxy_set_header Upgrade $http_upgrade;\n" ++
  "    proxy_set_header Connection \"upgrade\";\n" ++
  "\x7d\n\n"

/-- The `proxy_pass` line of a route's block (routes.go lines 215-226): with
`strip` set the target gains a trailing slash when absent, otherwise one
trailing slash is trimmed. -/
def proxyPassLine (r : Route) : String :=
  "    proxy_pass " ++
    (if r.strip then (if hasSuf r.target "/" then r.target else r.target ++ "/")
     else trimSuffix r.target "/") ++ ";\n"

/-- One location block of the generated nginx config (the body of the loop of
`generateNginxConfig`). -/
def routeBlock (r : Route) : String :=
  ("# Route: " ++ r.name ++ "\n") ++
  ("location " ++ r.path ++ " \x7b\n") ++
  proxyPassLine r ++
  commonDirectives

/-- Embeds `Manager.generateNginxConfig`: the header followed by one block
per route in iteration order. -/
def generateNginxConfig (rs : List Route) : String :=
  rs.foldl (fun acc r => acc ++ routeBlock r) nginxHeader

/-- The world a `Manager` acts on: the in-memory store, the persisted config
file (`routes.yaml`, modelled as its routes list) and the rendered nginx
artifact. `none` means the file does not exist. -/
structure World where
  routes     : List Route
  configFile : Option (List Route)
  artifact   : Option String
deriving DecidableEq, Repr

/-- A world with an empty store and no files, as after `NewManager` on a
fresh directory. -/
def emptyWorld : World := ⟨[], none, none⟩

/-- Embeds `Manager.List`: a snapshot of all routes in iteration order. -/
def managerList (w : World) : List Route := w.routes

/-- Embeds `Manager.Get`. -/
def managerGet (w : World) (n : String) : Option Route := lookupRoute w.routes n

/-- Embeds `Manager.Add` (routes.go lines 74-104). The three oracles give the
outcomes of the fallible external steps, in the order the code runs them:
`saveRes` for `m.save()` (mkdir + write of the config file), `writeRes` for
the mkdir + write of the nginx artifact inside `regenerateNginx`, and
`reloadRes` for the `docker exec … nginx -s reload` call, carrying its
diagnostic output on failure. Returns the final world and `Add`'s error. -/
def managerAdd (w : World) (r : Route)
    (saveRes writeRes reloadRes : Except String Unit) : World × Except String Unit :=
  if r.name = "" then (w, Except.error "route name is required")
  else if r.path = "" then (w, Except.error "route path is required")
  else if r.target = "" then (w, Except.error "route target is required")
  else
    let r2 : Route := { r with path := normalizePath r.path }
    let store2 := upsert w.routes r2
    let w1 : World := { w with routes := store2 }
    match saveRes with
    | Except.error e => (w1, Except.error e)
    | Except.ok _ =>
      let w2 : World := { w1 with configFile := some store2 }
      match writeRes with
      | Except.error e => (w2, Except.error e)
      | Except.ok _ =>
        let w3 : World := { w2 with artifact := some (generateNginxConfig store2) }
        match reloadRes with
        | Except.error e => (w3, Except.error ("nginx reload failed: " ++ e))
        | Except.ok _ => (w3, Except.ok ())

/-- Embeds `Manager.Remove` (routes.go lines 107-121), with the same three
oracles as `managerAdd` for the downstream pipeline. -/
def managerRemove (w : World) (n : String)
    (saveRes writeRes reloadRes : Except String Unit) : World × Except String Unit :=
  match lookupRoute w.routes n with
  | none => (w, Except.error ("route not found: " ++ n))
  | some _ =>
    let store2 := removeRoute w.routes n
    let w1 : World := { w with routes := store2 }
    match saveRes with
    | Except.error e => (w1, Except.error e)
    | Except.ok _ =>
      let w2 : World := { w1 with configFile := some store2 }
      match writeRes with
      | Except.error e => (w2, Except.error e)
      | Except.ok _ =>
        let w3 : World := { w2 with artifact := some (generateNginxConfig store2) }
        match reloadRes with
        | Except.error e => (w3, Except.error ("nginx reload failed: " ++ e))
        | Except.ok _ => (w3, Except.ok ())

/-- Embeds `Manager.load` (routes.go lines 134-153): each route of the
parsed config file is inserted into the store, verbatim, keyed by name. -/
def loadConfig (into : List Route) (cfg : List Route) : List Route :=
  cfg.foldl upsert into

/-- Embeds `Manager.save`'s data content: the persisted document's routes
list is the store's snapshot (YAML marshalling modelled as the identity). -/
def saveConfig (store : List Route) : List Route := store

/-- Embeds `NewManager`'s load of an existing config file: a missing file is
not an error and leaves the store empty. -/
def newManager (file : Option (List Route)) : List Route :=
  match file with
  | none => []
  | some cfg => loadConfig [] cfg

/-- The validation `Manager.Add` performs (routes.go lines 76-84). -/
def validRoute (r : Route) : Prop := r.name ≠ "" ∧ r.path ≠ "" ∧ r.target ≠ ""

/-- A path is normalized when it begins and ends with `/` (spec §3). -/
def normalizedPath (p : String) : Prop := hasPre p "/" = true ∧ hasSuf p "/" = true

/-- Every entry held in a store has a normalized path (the §3 invariant). -/
def storePathsNormalized (s : List Route) : Prop := ∀ r ∈ s, normalizedPath r.path

/-- The `Add` result entry: the input with its path normalized. -/
def normEntry (r : Route) : Route := { r with path := normalizePath r.path }

/-- The shape of an HTTP handler response, as far as the claims need it:
status code, the `ok` field, and the optional `warning` field. -/
structure HttpResp where
  status  : Nat
  ok      : Bool
  warning : Option String
deriving DecidableEq, Repr

/-- Embeds `LogSourcesHandler.addSource` (handlers/logsources.go lines
79-129) after JSON decoding: validation of `name` and `path`, then
`manager.Add` (outcome `addRes`), then `manager.ReloadPromtail` (outcome
`reloadRes`); a reload failure still answers 201 with `ok:true` and a
`warning` field. -/
def addSourceHandler (name path : String)
    (addRes reloadRes : Except String Unit) : HttpResp :=
  if name = "" then ⟨400, false, none⟩
  else if path = "" then ⟨400, false, none⟩
  else
    match addRes with
    | Except.error _ => ⟨500, false, none⟩
    | Except.ok _ =>
      match reloadRes with
      | Except.error e =>
        ⟨201, true, some ("Config saved but Promtail reload failed: " ++ e)⟩
      | Except.ok _ => ⟨201, true, none⟩

/-- Embeds `RoutesHandler.AddRoute` (handlers/routes.go lines 38-62) after
JSON decoding: any error from `manager.Add` — a reload failure included —
answers 400 with no warning field; success answers 201. -/
def addRouteHandler (addRes : Except String Unit) : HttpResp :=
  match addRes with
  | Except.error _ => ⟨400, false, none⟩
  | Except.ok _ => ⟨201, true, none⟩

/-- Sorting by name, as spec §8's determinism property prescribes before
rendering. -/
def sortByName (l : List Route) : List Route :=
  l.insertionSort (fun a b => a.name ≤ b.name)

/-- The proxy target as claim C10 describes it: with the strip flag unset the
target loses one trailing slash when present; with it set the target gains a
trailing slash when absent. -/
def claimProxyTarget (r : Route) : String :=
  if r.strip = false then trimSuffix r.target "/"
  else if hasSuf r.target "/" then r.target else r.target ++ "/"


/-! ### Helper lemmas -/

theorem listHasPre_single {c : Char} {l : List Char} :
    listHasPre [c] l = true ↔ ∃ t, l = c :: t := by
  cases l with
  | nil =>
    rw [show listHasPre [c] [] = false from rfl]
    simp only [Bool.false_eq_true, false_iff, not_exists]
    intro t ht
    exact List.cons_ne_nil c t ht.symm
  | cons a t =>
    rw [show listHasPre [c] (a :: t) = (c == a && listHasPre [] t) from rfl,
        show listHasPre ([] : List Char) t = true from rfl]
    simp only [Bool.and_true, beq_iff_eq, List.cons.injEq]
    constructor
    · intro h
      exact ⟨t, h.symm, rfl⟩
    · rintro ⟨t2, h1, h2⟩
      exact h1.symm

theorem hasPre_slash {p : String} :
    hasPre p "/" = true ↔ ∃ t, p.data = '/' :: t := by
  show listHasPre ['/'] p.data = true ↔ _
  exact listHasPre_single

theorem hasSuf_slash {p : String} :
    hasSuf p "/" = true ↔ ∃ t, p.data.reverse = '/' :: t := by
  show listHasPre ['/'] p.data.reverse = true ↔ _
  exact listHasPre_single

theorem hasPre_slash_append {p q : String} (h : hasPre p "/" = true) :
    hasPre (p ++ q) "/" = true := by
  rcases hasPre_slash.mp h with ⟨t, ht⟩
  exact hasPre_slash.mpr ⟨t ++ q.data, by rw [String.data_append, ht]; rfl⟩

theorem hasPre_slash_pre {p : String} : hasPre ("/" ++ p) "/" = true :=
  hasPre_slash.mpr ⟨p.data, by rw [String.data_append]; rfl⟩

theorem hasSuf_slash_append {p : String} : hasSuf (p ++ "/") "/" = true :=
  hasSuf_slash.mpr ⟨p.data.reverse, by rw [String.data_append, List.reverse_append]; rfl⟩

theorem normalizePath_startsSlash (p : String) :
    hasPre (normalizePath p) "/" = true := by
  have hp1 : hasPre (if hasPre p "/" then p else "/" ++ p) "/" = true := by
    by_cases h : hasPre p "/"
    · simp [h]
    · simp [h, hasPre_slash_pre]
  simp only [normalizePath]
  by_cases h2 : hasSuf (if hasPre p "/" then p else "/" ++ p) "/"
  · simp only [h2, if_true]
    exact hp1
  · simp only [h2, if_false, Bool.false_eq_true]
    exact hasPre_slash_append hp1

theorem normalizePath_endsSlash (p : String) :
    hasSuf (normalizePath p) "/" = true := by
  simp only [normalizePath]
  by_cases h2 : hasSuf (if hasPre p "/" then p else "/" ++ p) "/"
  · simp only [h2, if_true]
  · simp [h2, hasSuf_slash_append]


theorem lookup_upsert_self (s : List Route) (r : Route) :
    lookupRoute (upsert s r) r.name = some r := by
  induction s with
  | nil => simp [upsert, lookupRoute]
  | cons x xs ih =>
    by_cases h : x.name = r.name
    · simp [upsert, h, lookupRoute]
    · simp [upsert, h, lookupRoute, ih]

theorem lookup_upsert_other (s : List Route) (r : Route) (n : String)
    (h : n ≠ r.name) :
    lookupRoute (upsert s r) n = lookupRoute s n := by
  induction s with
  | nil => simp [upsert, lookupRoute, Ne.symm h]
  | cons x xs ih =>
    by_cases hx : x.name = r.name
    · simp [upsert, hx, lookupRoute, Ne.symm h]
    · simp [upsert, hx, lookupRoute, ih]

theorem lookup_mem {s : List Route} {n : String} {r : Route}
    (h : lookupRoute s n = some r) : r ∈ s := by
  induction s with
  | nil => simp [lookupRoute] at h
  | cons x xs ih =>
    by_cases hx : x.name = n
    · simp [lookupRoute, hx] at h
      simp [h]
    · simp [lookupRoute, hx] at h
      simp [ih h]

theorem mem_upsert {s : List Route} {r a : Route}
    (h : a ∈ upsert s r) : a = r ∨ a ∈ s := by
  induction s with
  | nil => simp [upsert] at h; simp [h]
  | cons x xs ih =>
    by_cases hx : x.name = r.name
    · simp [upsert, hx] at h
      rcases h with h | h
      · exact Or.inl h
      · exact Or.inr (List.mem_cons_of_mem x h)
    · simp [upsert, hx] at h
      rcases h with h | h
      · exact Or.inr (by simp [h])
      · rcases ih h with h2 | h2
        · exact Or.inl h2
        · exact Or.inr (List.mem_cons_of_mem x h2)


theorem upsert_of_not_mem {s : List Route} {r : Route}
    (h : r.name ∉ s.map Route.name) : upsert s r = s ++ [r] := by
  induction s with
  | nil => simp [upsert]
  | cons x xs ih =>
    simp only [List.map_cons, List.mem_cons, not_or] at h
    simp [upsert, Ne.symm h.1, ih h.2]

theorem loadConfig_append (acc l : List Route)
    (h : ((acc.map Route.name) ++ (l.map Route.name)).Nodup) :
    loadConfig acc l = acc ++ l := by
  induction l generalizing acc with
  | nil => simp [loadConfig]
  | cons a l ih =>
    have h2 := List.nodup_append.mp (by simpa using h)
    have ha : a.name ∉ acc.map Route.name := fun hmem => h2.2.2 hmem (by simp)
    have step : loadConfig acc (a :: l) = loadConfig (acc ++ [a]) l := by
      simp [loadConfig, upsert_of_not_mem ha]
    rw [step, ih (acc ++ [a]) (by simpa [List.append_assoc] using h)]
    simp



instance : IsTotal Route (fun a b => a.name ≤ b.name) :=
  ⟨fun a b => le_total a.name b.name⟩

instance : IsTrans Route (fun a b => a.name ≤ b.name) :=
  ⟨fun _ _ _ h1 h2 => le_trans h1 h2⟩

instance : IsAntisymm Route (fun a b => a.name < b.name) :=
  ⟨fun _ _ h1 h2 => absurd h2 (lt_asymm h1)⟩

theorem sortByName_perm (l : List Route) : List.Perm (sortByName l) l :=
  List.perm_insertionSort _ l

theorem sortByName_sorted (l : List Route) :
    List.Sorted (fun a b : Route => a.name ≤ b.name) (sortByName l) :=
  List.sorted_insertionSort _ l

theorem sorted_lt_of_nodup {l : List Route}
    (hs : List.Sorted (fun a b : Route => a.name ≤ b.name) l)
    (hn : (l.map Route.name).Nodup) :
    List.Sorted (fun a b : Route => a.name < b.name) l := by
  have hn2 : List.Pairwise (fun a b : Route => a.name ≠ b.name) l :=
    List.pairwise_map.mp hn
  exact (List.Pairwise.and hs hn2).imp fun h => lt_of_le_of_ne h.1 h.2

theorem sortByName_eq_of_perm {l1 l2 : List Route}
    (hw : wfStore l1) (hp : l1.Perm l2) :
    sortByName l1 = sortByName l2 := by
  have hw2 : wfStore l2 := (hp.map Route.name).nodup_iff.mp hw
  have hn1 : ((sortByName l1).map Route.name).Nodup :=
    (((sortByName_perm l1).map Route.name).nodup_iff).mpr hw
  have hn2 : ((sortByName l2).map Route.name).Nodup :=
    (((sortByName_perm l2).map Route.name).nodup_iff).mpr hw2
  exact List.eq_of_perm_of_sorted
    ((sortByName_perm l1).trans (hp.trans (sortByName_perm l2).symm))
    (sorted_lt_of_nodup (sortByName_sorted l1) hn1)
    (sorted_lt_of_nodup (sortByName_sorted l2) hn2)



theorem managerAdd_fst_routes (w : World) (r : Route)
    (o1 o2 o3 : Except String Unit)
    (h1 : r.name ≠ "") (h2 : r.path ≠ "") (h3 : r.target ≠ "") :
    (managerAdd w r o1 o2 o3).fst.routes = upsert w.routes (normEntry r) := by
  simp only [managerAdd, h1, h2, h3, if_false]
  cases o1 <;> cases o2 <;> cases o3 <;> rfl

theorem managerAdd_fst_routes_cases (w : World) (r : Route)
    (o1 o2 o3 : Except String Unit) :
    (managerAdd w r o1 o2 o3).fst.routes = w.routes ∨
    (managerAdd w r o1 o2 o3).fst.routes = upsert w.routes (normEntry r) := by
  by_cases h1 : r.name = ""
  · left; simp [managerAdd, h1]
  by_cases h2 : r.path = ""
  · left; simp [managerAdd, h1, h2]
  by_cases h3 : r.target = ""
  · left; simp [managerAdd, h1, h2, h3]
  · right; exact managerAdd_fst_routes w r o1 o2 o3 h1 h2 h3

theorem managerAdd_snd_ok (w : World) (r : Route)
    (h1 : r.name ≠ "") (h2 : r.path ≠ "") (h3 : r.target ≠ "") :
    (managerAdd w r (Except.ok ()) (Except.ok ()) (Except.ok ())).snd = Except.ok () := by
  simp [managerAdd, h1, h2, h3]


/-! ### Claims -/

/-- C1 (counterexample): with the reload action failing after a successful
store mutation, persist and render, the routes-instance `Add` does **not**
return success — it propagates the reload error (and the HTTP routes handler
answers 400) — even though the persisted config file and the rendered
artifact already hold the new entry. -/
theorem add_reload_error_not_success_cx :
    (managerAdd emptyWorld (Route.mk "app" "app" "http://app:3000" false)
        (Except.ok ()) (Except.ok ()) (Except.error "reload exit 1")).fst.configFile =
      some [Route.mk "app" "/app/" "http://app:3000" false] ∧
    (managerAdd emptyWorld (Route.mk "app" "app" "http://app:3000" false)
        (Except.ok ()) (Except.ok ()) (Except.error "reload exit 1")).fst.artifact =
      some (generateNginxConfig [Route.mk "app" "/app/" "http://app:3000" false]) ∧
    (managerAdd emptyWorld (Route.mk "app" "app" "http://app:3000" false)
        (Except.ok ()) (Except.ok ()) (Except.error "reload exit 1")).snd =
      Except.error "nginx reload failed: reload exit 1" ∧
    addRouteHandler (managerAdd emptyWorld (Route.mk "app" "app" "http://app:3000" false)
        (Except.ok ()) (Except.ok ()) (Except.error "reload exit 1")).snd =
      HttpResp.mk 400 false none :=
  ⟨rfl, rfl, rfl, rfl⟩

/-- C1 (amended): when the reload action fails after the store mutation,
persist and render of an `Add` have succeeded, the mutation is non-fatal: the
final world holds the new entry in the store, the persisted config file and
the rendered artifact; the routes-instance `Manager.Add` returns the
`ReloadError` rather than success, while the log-sources HTTP handler turns
the same situation into a 201 success response carrying a warning field. -/
theorem add_reload_error_nonfatal (w : World) (r : Route) (e : String)
    (h1 : r.name ≠ "") (h2 : r.path ≠ "") (h3 : r.target ≠ "") :
    (managerAdd w r (Except.ok ()) (Except.ok ()) (Except.error e)).fst =
      World.mk (upsert w.routes (normEntry r)) (some (upsert w.routes (normEntry r)))
        (some (generateNginxConfig (upsert w.routes (normEntry r)))) ∧
    (managerAdd w r (Except.ok ()) (Except.ok ()) (Except.error e)).snd =
      Except.error ("nginx reload failed: " ++ e) ∧
    addSourceHandler r.name r.path (Except.ok ()) (Except.error e) =
      HttpResp.mk 201 true (some ("Config saved but Promtail reload failed: " ++ e)) := by
  refine ⟨?_, ?_, ?_⟩
  · simp [managerAdd, h1, h2, h3, normEntry]
  · simp [managerAdd, h1, h2, h3]
  · simp [addSourceHandler, h1, h2]

/-- Witness for C1's amended theorem at a concrete route and reload error. -/
theorem add_reload_error_nonfatal_witness :
    (managerAdd emptyWorld (Route.mk "app" "/app/" "http://app:3000" false)
        (Except.ok ()) (Except.ok ()) (Except.error "boom")).snd =
      Except.error "nginx reload failed: boom" :=
  (add_reload_error_nonfatal emptyWorld (Route.mk "app" "/app/" "http://app:3000" false)
    "boom" (by decide) (by decide) (by decide)).2.1

/-- C2: for every valid entry (non-empty name, path and target) and every
outcome of the downstream pipeline, `Add(e)` followed by `Get(e.Name)` finds
the entry, equal to `e` except that its path is normalized. -/
theorem add_then_get_normalized (w : World) (r : Route)
    (o1 o2 o3 : Except String Unit)
    (h1 : r.name ≠ "") (h2 : r.path ≠ "") (h3 : r.target ≠ "") :
    managerGet (managerAdd w r o1 o2 o3).fst r.name = some (normEntry r) := by
  unfold managerGet
  rw [managerAdd_fst_routes w r o1 o2 o3 h1 h2 h3]
  have hk : (normEntry r).name = r.name := rfl
  rw [← hk]
  exact lookup_upsert_self w.routes (normEntry r)

/-- Witness for C2 at a concrete entry whose path lacks both slashes. -/
theorem add_then_get_normalized_witness :
    managerGet (managerAdd emptyWorld (Route.mk "api" "api" "http://api:9000" false)
        (Except.ok ()) (Except.ok ()) (Except.ok ())).fst "api" =
      some (Route.mk "api" "/api/" "http://api:9000" false) := by
  have h := add_then_get_normalized emptyWorld (Route.mk "api" "api" "http://api:9000" false)
    (Except.ok ()) (Except.ok ()) (Except.ok ())
    (by decide) (by decide) (by decide)
  simpa [normEntry, normalizePath, hasPre, hasSuf, listHasPre] using h

/-- C3 (counterexample): the startup load copies entries verbatim, so loading
a persisted config file holding the path `"x"` yields a store whose entry
violates the begins-and-ends-with-`/` invariant — load does not normalize. -/
theorem load_unnormalized_path_cx :
    newManager (some [Route.mk "a" "x" "t" false]) = [Route.mk "a" "x" "t" false] ∧
    ¬ storePathsNormalized (newManager (some [Route.mk "a" "x" "t" false])) := by
  refine ⟨rfl, ?_⟩
  intro h
  have h2 := (h (Route.mk "a" "x" "t" false) (by decide)).1
  simp [hasPre, listHasPre] at h2

/-- C3 (amended): `Add` establishes and preserves the normalized-path
invariant for every pipeline outcome, and the startup load preserves it
whenever the persisted config file's entries satisfy it (as files produced
by `save` do). -/
theorem path_invariant_add_and_load (w : World) (r : Route) (cfg : List Route)
    (o1 o2 o3 : Except String Unit)
    (hw : storePathsNormalized w.routes) (hcfg : storePathsNormalized cfg) :
    storePathsNormalized (managerAdd w r o1 o2 o3).fst.routes ∧
    storePathsNormalized (newManager (some cfg)) := by
  constructor
  · rcases managerAdd_fst_routes_cases w r o1 o2 o3 with he | he
    · rw [he]; exact hw
    · rw [he]
      intro a ha
      rcases mem_upsert ha with h | h
      · rw [h]
        exact ⟨normalizePath_startsSlash r.path, normalizePath_endsSlash r.path⟩
      · exact hw a h
  · intro a ha
    have hmem : a ∈ ([] : List Route) ∨ a ∈ cfg := by
      clear hcfg
      unfold newManager loadConfig at ha
      generalize hacc : ([] : List Route) = acc at *
      clear hacc
      induction cfg generalizing acc with
      | nil => exact Or.inl ha
      | cons c l ih =>
        rcases ih (upsert acc c) ha with h | h
        · rcases mem_upsert h with h2 | h2
          · exact Or.inr (by simp [h2])
          · exact Or.inl h2
        · exact Or.inr (List.mem_cons_of_mem c h)
    rcases hmem with h | h
    · exact absurd h (List.not_mem_nil a)
    · exact hcfg a h

/-- Witness for C3's amended theorem: an add on an empty store and a load of
a normalized config file. -/
theorem path_invariant_add_and_load_witness :
    storePathsNormalized (managerAdd emptyWorld (Route.mk "a" "a" "t" false)
        (Except.ok ()) (Except.ok ()) (Except.ok ())).fst.routes ∧
    storePathsNormalized (newManager (some [Route.mk "b" "/b/" "t" false])) :=
  path_invariant_add_and_load emptyWorld (Route.mk "a" "a" "t" false)
    [Route.mk "b" "/b/" "t" false] (Except.ok ()) (Except.ok ()) (Except.ok ())
    (by intro a ha; exact absurd ha (List.not_mem_nil a))
    (by
      intro a ha
      rw [List.mem_singleton] at ha
      rw [ha]
      exact ⟨by decide, by decide⟩)

/-- C4: for every well-formed store (names unique, as a Go map guarantees),
loading the document `save` produces restores the store exactly. -/
theorem persist_load_roundtrip (s : List Route) (h : wfStore s) :
    newManager (some (saveConfig s)) = s := by
  show loadConfig [] s = s
  rw [loadConfig_append [] s (by simpa using h)]
  simp

/-- Witness for C4 at a concrete two-entry store. -/
theorem persist_load_roundtrip_witness :
    newManager (some (saveConfig
      [Route.mk "a" "/a/" "t1" false, Route.mk "b" "/b/" "t2" true])) =
      [Route.mk "a" "/a/" "t1" false, Route.mk "b" "/b/" "t2" true] :=
  persist_load_roundtrip [Route.mk "a" "/a/" "t1" false, Route.mk "b" "/b/" "t2" true]
    (by unfold wfStore; decide)

/-- C5: rendering is a pure function of the set of entries — any two
sequences holding the same entries (in any order, names unique) render to
byte-identical text once sorted by name. -/
theorem render_sorted_deterministic (l1 l2 : List Route)
    (hw : wfStore l1) (hp : l1.Perm l2) :
    generateNginxConfig (sortByName l1) = generateNginxConfig (sortByName l2) := by
  rw [sortByName_eq_of_perm hw hp]

/-- Witness for C5 on a two-entry set presented in both orders. -/
theorem render_sorted_deterministic_witness :
    generateNginxConfig (sortByName
      [Route.mk "a" "/a/" "t1" false, Route.mk "b" "/b/" "t2" true]) =
    generateNginxConfig (sortByName
      [Route.mk "b" "/b/" "t2" true, Route.mk "a" "/a/" "t1" false]) :=
  render_sorted_deterministic
    [Route.mk "a" "/a/" "t1" false, Route.mk "b" "/b/" "t2" true]
    [Route.mk "b" "/b/" "t2" true, Route.mk "a" "/a/" "t1" false]
    (by unfold wfStore; decide) (by decide)

/-- C6 (counterexample): an entry with empty target but also an empty name
makes `Add` fail with the message `route name is required`, which does not
mention `target` — the validation error names the first missing field, not
necessarily `target`. -/
theorem add_empty_target_empty_name_cx :
    (Route.mk "" "p" "" false).target = "" ∧
    managerAdd emptyWorld (Route.mk "" "p" "" false)
        (Except.ok ()) (Except.ok ()) (Except.ok ()) =
      (emptyWorld, Except.error "route name is required") ∧
    ¬ ("target".data <:+: "route name is required".data) := by
  refine ⟨rfl, rfl, ?_⟩
  decide

/-- C6 (amended): for every entry with empty target whose name and path are
non-empty, `Add` fails with a validation error mentioning `target`, the
store is unchanged and no file is written (the world is returned intact). -/
theorem add_empty_target_validation (w : World) (r : Route)
    (o1 o2 o3 : Except String Unit)
    (h1 : r.name ≠ "") (h2 : r.path ≠ "") (h3 : r.target = "") :
    managerAdd w r o1 o2 o3 = (w, Except.error "route target is required") ∧
    ("target".data <:+: "route target is required".data) := by
  constructor
  · simp [managerAdd, h1, h2, h3]
  · decide

/-- Witness for C6's amended theorem at a concrete entry. -/
theorem add_empty_target_validation_witness :
    managerAdd emptyWorld (Route.mk "web" "/w/" "" true)
        (Except.ok ()) (Except.ok ()) (Except.ok ()) =
      (emptyWorld, Except.error "route target is required") :=
  (add_empty_target_validation emptyWorld (Route.mk "web" "/w/" "" true)
    (Except.ok ()) (Except.ok ()) (Except.ok ())
    (by decide) (by decide) (by decide)).1

/-- C7: removing a name not present in the store fails with the
route-not-found error and leaves the world — hence a later `List` — exactly
as it was. -/
theorem remove_absent_notfound (w : World) (n : String)
    (o1 o2 o3 : Except String Unit)
    (h : lookupRoute w.routes n = none) :
    managerRemove w n o1 o2 o3 = (w, Except.error ("route not found: " ++ n)) ∧
    managerList (managerRemove w n o1 o2 o3).fst = managerList w := by
  have he : managerRemove w n o1 o2 o3 = (w, Except.error ("route not found: " ++ n)) := by
    unfold managerRemove
    rw [h]
  exact ⟨he, by rw [he]⟩

/-- Witness for C7: removing from an empty store. -/
theorem remove_absent_notfound_witness :
    managerRemove emptyWorld "ghost" (Except.ok ()) (Except.ok ()) (Except.ok ()) =
      (emptyWorld, Except.error "route not found: ghost") :=
  (remove_absent_notfound emptyWorld "ghost" (Except.ok ()) (Except.ok ()) (Except.ok ())
    (by rfl)).1

set_option maxRecDepth 100000 in
/-- C8: adding the blog entry stores it with path `/blog/` and the rendered
artifact contains a location block proxying `/blog/` to `http://blog:8000/`
(the target gains a trailing slash because the strip flag is set). -/
theorem add_blog_scenario :
    managerGet (managerAdd emptyWorld (Route.mk "blog" "blog" "http://blog:8000" true)
        (Except.ok ()) (Except.ok ()) (Except.ok ())).fst "blog" =
      some (Route.mk "blog" "/blog/" "http://blog:8000" true) ∧
    ∃ s, (managerAdd emptyWorld (Route.mk "blog" "blog" "http://blog:8000" true)
        (Except.ok ()) (Except.ok ()) (Except.ok ())).fst.artifact = some s ∧
      ("location /blog/ \x7b\n    proxy_pass http://blog:8000/;\n".data <:+: s.data) := by
  refine ⟨by decide, generateNginxConfig [Route.mk "blog" "/blog/" "http://blog:8000" true],
    by decide, ?_⟩
  decide

/-- C9: two `Add`s of distinct valid entries — in either serialization order
the store lock admits — both return success, and both entries (paths
normalized) appear in the next `List`. -/
theorem concurrent_adds_both_present (w : World) (a b : Route)
    (ha1 : a.name ≠ "") (ha2 : a.path ≠ "") (ha3 : a.target ≠ "")
    (hb1 : b.name ≠ "") (hb2 : b.path ≠ "") (hb3 : b.target ≠ "")
    (hne : a.name ≠ b.name) :
    ((managerAdd w a (Except.ok ()) (Except.ok ()) (Except.ok ())).snd = Except.ok () ∧
     (managerAdd (managerAdd w a (Except.ok ()) (Except.ok ()) (Except.ok ())).fst b
        (Except.ok ()) (Except.ok ()) (Except.ok ())).snd = Except.ok () ∧
     normEntry a ∈ managerList (managerAdd
        (managerAdd w a (Except.ok ()) (Except.ok ()) (Except.ok ())).fst b
        (Except.ok ()) (Except.ok ()) (Except.ok ())).fst ∧
     normEntry b ∈ managerList (managerAdd
        (managerAdd w a (Except.ok ()) (Except.ok ()) (Except.ok ())).fst b
        (Except.ok ()) (Except.ok ()) (Except.ok ())).fst) ∧
    ((managerAdd w b (Except.ok ()) (Except.ok ()) (Except.ok ())).snd = Except.ok () ∧
     (managerAdd (managerAdd w b (Except.ok ()) (Except.ok ()) (Except.ok ())).fst a
        (Except.ok ()) (Except.ok ()) (Except.ok ())).snd = Except.ok () ∧
     normEntry a ∈ managerList (managerAdd
        (managerAdd w b (Except.ok ()) (Except.ok ()) (Except.ok ())).fst a
        (Except.ok ()) (Except.ok ()) (Except.ok ())).fst ∧
     normEntry b ∈ managerList (managerAdd
        (managerAdd w b (Except.ok ()) (Except.ok ()) (Except.ok ())).fst a
        (Except.ok ()) (Except.ok ()) (Except.ok ())).fst) := by
  have keyA : (normEntry a).name = a.name := rfl
  have keyB : (normEntry b).name = b.name := rfl
  constructor
  · refine ⟨managerAdd_snd_ok w a ha1 ha2 ha3, managerAdd_snd_ok _ b hb1 hb2 hb3, ?_, ?_⟩
    · apply lookup_mem (n := a.name)
      rw [managerList, managerAdd_fst_routes _ b _ _ _ hb1 hb2 hb3,
        managerAdd_fst_routes _ a _ _ _ ha1 ha2 ha3,
        lookup_upsert_other _ _ _ (keyB ▸ hne), ← keyA]
      exact lookup_upsert_self _ _
    · apply lookup_mem (n := b.name)
      rw [managerList, managerAdd_fst_routes _ b _ _ _ hb1 hb2 hb3, ← keyB]
      exact lookup_upsert_self _ _
  · refine ⟨managerAdd_snd_ok w b hb1 hb2 hb3, managerAdd_snd_ok _ a ha1 ha2 ha3, ?_, ?_⟩
    · apply lookup_mem (n := a.name)
      rw [managerList, managerAdd_fst_routes _ a _ _ _ ha1 ha2 ha3, ← keyA]
      exact lookup_upsert_self _ _
    · apply lookup_mem (n := b.name)
      rw [managerList, managerAdd_fst_routes _ a _ _ _ ha1 ha2 ha3,
        managerAdd_fst_routes _ b _ _ _ hb1 hb2 hb3,
        lookup_upsert_other _ _ _ (keyA ▸ hne.symm), ← keyB]
      exact lookup_upsert_self _ _

/-- Witness for C9: the entries named `a` and `b` both appear after the
a-then-b serialization on an empty store. -/
theorem concurrent_adds_both_present_witness :
    normEntry (Route.mk "a" "/a/" "t" false) ∈ managerList (managerAdd
        (managerAdd emptyWorld (Route.mk "a" "/a/" "t" false)
          (Except.ok ()) (Except.ok ()) (Except.ok ())).fst (Route.mk "b" "/b/" "u" true)
        (Except.ok ()) (Except.ok ()) (Except.ok ())).fst ∧
    normEntry (Route.mk "b" "/b/" "u" true) ∈ managerList (managerAdd
        (managerAdd emptyWorld (Route.mk "a" "/a/" "t" false)
          (Except.ok ()) (Except.ok ()) (Except.ok ())).fst (Route.mk "b" "/b/" "u" true)
        (Except.ok ()) (Except.ok ()) (Except.ok ())).fst :=
  ⟨((concurrent_adds_both_present emptyWorld (Route.mk "a" "/a/" "t" false)
      (Route.mk "b" "/b/" "u" true) (by decide) (by decide) (by decide)
      (by decide) (by decide) (by decide) (by decide)).1).2.2.1,
   ((concurrent_adds_both_present emptyWorld (Route.mk "a" "/a/" "t" false)
      (Route.mk "b" "/b/" "u" true) (by decide) (by decide) (by decide)
      (by decide) (by decide) (by decide) (by decide)).1).2.2.2⟩

/-- C10: every route's rendered block contains a `proxy_pass` line whose
target is the route's target with one trailing slash trimmed when the strip
flag is unset, and with a trailing slash appended when the flag is set and
the slash absent. -/
theorem render_target_slash_behavior (r : Route) :
    ("    proxy_pass " ++ claimProxyTarget r ++ ";\n").data <:+: (routeBlock r).data := by
  have hline : proxyPassLine r = "    proxy_pass " ++ claimProxyTarget r ++ ";\n" := by
    unfold proxyPassLine claimProxyTarget
    cases hs : r.strip <;> simp
  refine ⟨(("# Route: " ++ r.name ++ "\n") ++ ("location " ++ r.path ++ " \x7b\n")).data,
    commonDirectives.data, ?_⟩
  rw [← hline]
  unfold routeBlock
  simp [String.data_append, List.append_assoc]

end Forge
